import Mathlib

/-!
Shallow embedding of `src/calc.cpp` (a Roman-numeral expression calculator):
the `RomanConverter` codec, the `Element` token model with its arithmetic
(including the 32-bit narrowing `divide`), and the `ExpressionSolver`
shunting-yard parser and postfix evaluator, followed by theorems settling
the specification claims.  Strings are modelled as `List Char`; `int64_t`
as `Int`; C++ `int` arithmetic as `Int` reduced into `[-2^31, 2^31)` where
a narrowing conversion happens; exceptions as `Except Err`.
-/

set_option maxRecDepth 10000

namespace RomanCalc

/-- Error taxonomy: each constructor corresponds to one `std::logic_error`
message thrown in calc.cpp. -/
inductive Err
  | BadSymbol (pos : Nat)
  | UnbalancedBrackets
  | DivisionByZero
  | Overflow
  | MalformedExpression
  deriving DecidableEq

/-- Additive value of a single Roman letter (`RomanConverter::rule_add`);
`std::unordered_map::operator[]` yields 0 for any key absent from the table. -/
def rule_add (c : Char) : Int :=
  if c = 'I' then 1
  else if c = 'V' then 5
  else if c = 'X' then 10
  else if c = 'L' then 50
  else if c = 'C' then 100
  else if c = 'D' then 500
  else if c = 'M' then 1000
  else 0

/-- Pair table `RomanConverter::rule_div` exactly as initialised in calc.cpp —
the stored numbers are 3, 8, 30, 80, 300 and 800; a pair absent from the
table yields 0 (default-inserted by `operator[]`). -/
def rule_div (p : Char × Char) : Int :=
  if p = ('I', 'V') then 3
  else if p = ('I', 'X') then 8
  else if p = ('X', 'L') then 30
  else if p = ('X', 'C') then 80
  else if p = ('C', 'D') then 300
  else if p = ('C', 'M') then 800
  else 0

/-- The ordered `(weight, glyph)` table `RomanConverter::weight`. -/
def weight : List (Nat × List Char) :=
  [(1000, ['M']), (900, ['C', 'M']), (500, ['D']), (400, ['C', 'D']),
   (100, ['C']), (90, ['X', 'C']), (50, ['L']), (40, ['X', 'L']),
   (10, ['X']), (9, ['I', 'X']), (5, ['V']), (4, ['I', 'V']),
   (1, ['I']), (0, ['Z'])]

/-- `RomanConverter::to_int64`: scan left to right; whenever the previous
letter's additive value is strictly below the current one's, add the
`rule_div` entry for the pair instead of the current letter's value.
`prev_literal` starts as the NUL character (C++ `char prev_literal = 0`). -/
def to_int64 (value : List Char) : Int :=
  if value = ['Z'] then 0
  else
    (value.foldl
      (fun (acc : Int × Char) (literal : Char) =>
        if acc.2 ≠ Char.ofNat 0 ∧ rule_add acc.2 < rule_add literal then
          (acc.1 + rule_div (acc.2, literal), literal)
        else
          (acc.1 + rule_add literal, literal))
      (0, Char.ofNat 0)).1

/-- The `while (value > 0)` loop of `RomanConverter::to_roman`: take the first
table entry whose weight fits, subtract it, emit its glyph.  Recursion is by
explicit fuel; each iteration subtracts at least 1 (entry `(1, I)` precedes
`(0, Z)`), so fuel equal to the starting value is always sufficient. -/
def toRomanLoop (fuel v : Nat) : List Char :=
  match fuel, v with
  | _, 0 => []
  | 0, _ + 1 => []
  | fuel + 1, v + 1 =>
    match weight.find? (fun w => decide (w.1 ≤ v + 1)) with
    | some w => w.2 ++ toRomanLoop fuel (v + 1 - w.1)
    | none => []

/-- `RomanConverter::to_roman`: 0 encodes as the zero symbol, values with
absolute value above 3999 raise the overflow error, negatives get a leading
minus sign before the greedy loop runs on the absolute value. -/
def to_roman (value : Int) : Except Err (List Char) :=
  if value = 0 then .ok ['Z']
  else if 3999 < value.natAbs then .error .Overflow
  else if value < 0 then .ok ('-' :: toRomanLoop value.natAbs value.natAbs)
  else .ok (toRomanLoop value.natAbs value.natAbs)

/-- The three `ElementType` enumerators of calc.cpp. -/
inductive ElementType
  | BRACKET
  | BINARY_OPERATION
  | VALUE
  deriving DecidableEq

/-- The `Element` class: `value_` is an `int64_t` (for operators and brackets
it stores the character code), `label_` the element type, `priority_` the
shunting-yard rank. -/
structure Element where
  value : Int
  label : ElementType
  priority : Int
  deriving DecidableEq

/-- The `switch` in the second `Element` constructor: rank 0 for `+` and `-`,
1 for `*` and `/`, -1 for brackets.  The `default:` case of the switch leaves
`priority_` uninitialised; it is never reached for elements the program
constructs, and is modelled as 0. -/
def priorityOf (c : Char) : Int :=
  if c = '+' ∨ c = '-' then 0
  else if c = '*' ∨ c = '/' then 1
  else if c = '(' ∨ c = ')' then -1
  else 0

/-- `Element(int64_t value)`: a resolved operand, priority 3. -/
def Element.mkValue (v : Int) : Element :=
  ⟨v, .VALUE, 3⟩

/-- `Element(int value, ElementType type)`: an operator or bracket element
carrying its character code. -/
def Element.mkOp (c : Char) (t : ElementType) : Element :=
  ⟨(c.toNat : Int), t, priorityOf c⟩

/-- Reduction of an `Int` into the range of a C++ 32-bit `int`
(two's-complement narrowing, i.e. reduction modulo 2 ^ 32). -/
def toInt32 (x : Int) : Int :=
  (x + 2 ^ 31) % 2 ^ 32 - 2 ^ 31

/-- C `abs` applied to an `int`; the result wraps at `INT_MIN`. -/
def cabs (x : Int) : Int :=
  toInt32 x.natAbs

/-- `Element::divide(int left, int right)`: both operands are narrowed to
32-bit `int` by the call.  Same-sign operands use plain C++ `/` (truncating
division); mixed-sign operands use `-(abs(left) + abs(right) - 1) / abs(right)`,
whose `int`-typed numerator is again reduced into 32-bit range. -/
def divide (left right : Int) : Int :=
  let l := toInt32 left
  let r := toInt32 right
  if (l ≤ 0 ∧ r < 0) ∨ (0 ≤ l ∧ 0 < r) then
    Int.tdiv l r
  else
    Int.tdiv (toInt32 (-(cabs l + cabs r - 1))) (cabs r)

/-- `Element::proceed`: dispatch on the stored operator character code and
produce a fresh value element; `/` first checks the right operand for zero.
The `default:` case leaves `result` at 0. -/
def Element.proceed (self left right : Element) : Except Err Element :=
  if self.value = ('+'.toNat : Int) then
    .ok (Element.mkValue (left.value + right.value))
  else if self.value = ('-'.toNat : Int) then
    .ok (Element.mkValue (left.value - right.value))
  else if self.value = ('*'.toNat : Int) then
    .ok (Element.mkValue (left.value * right.value))
  else if self.value = ('/'.toNat : Int) then
    if right.value = 0 then .error .DivisionByZero
    else .ok (Element.mkValue (divide left.value right.value))
  else
    .ok (Element.mkValue 0)

/-- The scan loop of `ExpressionSolver::solve` over the postfix sequence.
The value stack is a cons-list whose head is the top (`std::vector::back`);
a binary operation pops `right` then `left` and requires both to be values. -/
def solveLoop : List Element → List Element → Except Err (List Element)
  | [], st => .ok st
  | e :: rest, st =>
    if e.label = ElementType.BINARY_OPERATION then
      match st with
      | right :: left :: st =>
        if left.label ≠ ElementType.VALUE ∨ right.label ≠ ElementType.VALUE then
          .error .MalformedExpression
        else
          match e.proceed left right with
          | .error err => .error err
          | .ok res => solveLoop rest (res :: st)
      | _ => .error .MalformedExpression
    else
      solveLoop rest (e :: st)

/-- The tail of `ExpressionSolver::solve` after the scan loop: the code
inspects only `stack[0]` — the BOTTOM of the stack, the last element of our
cons-list — checks that it is a value, and returns its payload (any further
stack entries are ignored).  `stack[0]` on an empty stack is out-of-bounds
vector access in C++; it is unreachable from `solve` (the empty-output case
returns early) and is modelled as a malformed-expression error. -/
def evaluate (out : List Element) : Except Err Int :=
  match solveLoop out [] with
  | .error err => .error err
  | .ok st =>
    match st.getLast? with
    | some e =>
      if e.label ≠ ElementType.VALUE then .error .MalformedExpression
      else .ok e.value
    | none => .error .MalformedExpression

/-- The `available_symbols` vector of `ExpressionSolver`. -/
def available_symbols : List Char :=
  ['I', 'V', 'X', 'L', 'C', 'D', 'M', 'Z']

/-- `ExpressionSolver::is_roman`. -/
def is_roman (c : Char) : Bool :=
  available_symbols.contains c

/-- `ExpressionSolver::is_operation`. -/
def is_operation (c : Char) : Bool :=
  c == '+' || c == '-' || c == '*' || c == '/'

/-- `std::isspace` in the default C locale. -/
def isspace (c : Char) : Bool :=
  c == ' ' || c == '\t' || c == '\n' || c == '\x0b' || c == '\x0c' || c == '\r'

/-- Indexing `data_[i]`: `std::string::operator[]` at position `size()`
returns the NUL character, which is how the code reads one past the end in
`is_unary`; model indexing with that default. -/
def charAt (s : List Char) (i : Nat) : Char :=
  s.getD i (Char.ofNat 0)

/-- `ExpressionSolver::is_unary`, with the C++ grouping kept as written:
`&&` binds tighter than `||`, so the first line groups as
`(current + 1 < size && data[current+1] == lparen) || is_roman (data[current+1])`. -/
def is_unary (s : List Char) (current : Nat) : Bool :=
  ((decide (current + 1 < s.length) && charAt s (current + 1) == '(')
      || is_roman (charAt s (current + 1)))
    && charAt s current == '-'
    && (decide (current = 0)
      || (decide (0 < current)
        && (is_operation (charAt s (current - 1)) || charAt s (current - 1) == ')')))

/-- The maximal run of Roman letters starting at `pos`
(what `ExpressionSolver::read_number` consumes). -/
def romanRun (s : List Char) (pos : Nat) : List Char :=
  (s.drop pos).takeWhile is_roman

/-- The close-bracket branch of the parser loop: pop elements to the output
until a bracket is found (which is popped and discarded); an empty stack is
an unbalanced-bracket error. -/
def closeStep : List Element → List Element → Except Err (List Element × List Element)
  | [], _ => .error .UnbalancedBrackets
  | e :: st, out =>
    if e.label ≠ ElementType.BRACKET then closeStep st (out ++ [e])
    else .ok (st, out)

/-- The binary-operator branch of the parser loop: pop to the output while
the stack top's priority is at least the new operator's, then push it. -/
def opStep (cur : Element) : List Element → List Element → List Element × List Element
  | [], out => ([cur], out)
  | e :: st, out =>
    if cur.priority ≤ e.priority then opStep cur st (out ++ [e])
    else (cur :: e :: st, out)

/-- The final `while (!stack.empty())` of the parser: flush the stack to the
output, failing on any leftover element that is not a binary operation
(i.e. an unmatched bracket). -/
def flushStack : List Element → List Element → Except Err (List Element)
  | [], out => .ok out
  | e :: st, out =>
    if e.label ≠ ElementType.BINARY_OPERATION then .error .UnbalancedBrackets
    else flushStack st (out ++ [e])

/-- The scanning loop of the `ExpressionSolver` constructor over the cleaned
string `data`, with cursor `pos`, the `unarity` sign, the operator stack and
the output sequence.  A Roman run appends `value * unarity`; a detected unary
minus sets `unarity` to -1 and is the only branch that does not reset it.
The cursor advances by at least one position per iteration, so the fuel
`data.length + 1` used by `parse` never runs out (on exhaustion the loop
would behave as if the scan had ended). -/
def parseLoop (data : List Char) :
    Nat → Nat → Int → List Element → List Element → Except Err (List Element)
  | 0, _, _, st, out => flushStack st out
  | fuel + 1, pos, unarity, st, out =>
    if pos < data.length then
      let c := charAt data pos
      if is_roman c then
        let run := romanRun data pos
        parseLoop data fuel (pos + run.length) 1 st
          (out ++ [Element.mkValue (to_int64 run * unarity)])
      else if c == '(' then
        parseLoop data fuel (pos + 1) 1 (Element.mkOp '(' ElementType.BRACKET :: st) out
      else if c == ')' then
        match closeStep st out with
        | .error err => .error err
        | .ok (st, out) => parseLoop data fuel (pos + 1) 1 st out
      else if is_operation c then
        if is_unary data pos then
          parseLoop data fuel (pos + 1) (-1) st out
        else
          let next := opStep (Element.mkOp c ElementType.BINARY_OPERATION) st out
          parseLoop data fuel (pos + 1) 1 next.1 next.2
      else
        .error (.BadSymbol (pos + 1))
    else
      flushStack st out

/-- Whitespace removal performed on `data_` before scanning. -/
def clean (s : List Char) : List Char :=
  s.filter (fun c => !isspace c)

/-- The `ExpressionSolver` constructor: strip whitespace, then run the
scanning loop from position 0 with `unarity = 1` and empty stacks, producing
the postfix (Reverse Polish) sequence `out`. -/
def parseExpr (s : List Char) : Except Err (List Element) :=
  let data := clean s
  parseLoop data (data.length + 1) 0 1 [] []

/-- `ExpressionSolver::solve` on the parsed output: an empty sequence
returns the zero symbol immediately; otherwise the postfix sequence is
reduced and the surviving value is re-encoded by the converter. -/
def solveOut (out : List Element) : Except Err (List Char) :=
  if out = [] then .ok ['Z']
  else
    match evaluate out with
    | .error err => .error err
    | .ok v => to_roman v

/-- Whole pipeline for one expression string: parse, then solve. -/
def solveExpr (s : List Char) : Except Err (List Char) :=
  match parseExpr s with
  | .error err => .error err
  | .ok out => solveOut out

/-- The pair table as claim C4 states it — combined subtractive values 4, 9,
40, 90, 400, 900.  This follows the claim's words, for comparison with the
`rule_div` table the source actually contains. -/
def rule_div_claimC4 (p : Char × Char) : Int :=
  if p = ('I', 'V') then 4
  else if p = ('I', 'X') then 9
  else if p = ('X', 'L') then 40
  else if p = ('X', 'C') then 90
  else if p = ('C', 'D') then 400
  else if p = ('C', 'M') then 900
  else 0

/-- Decode as claim C4 words it: the same left-to-right scan as `to_int64`,
but on an ascending adjacent pair it adds the combined value from the claim's
table `rule_div_claimC4` instead of the current letter's plain value.  This
definition follows the claim's words, for comparison with `to_int64`. -/
def to_int64_claimC4 (value : List Char) : Int :=
  if value = ['Z'] then 0
  else
    (value.foldl
      (fun (acc : Int × Char) (literal : Char) =>
        if acc.2 ≠ Char.ofNat 0 ∧ rule_add acc.2 < rule_add literal then
          (acc.1 + rule_div_claimC4 (acc.2, literal), literal)
        else
          (acc.1 + rule_add literal, literal))
      (0, Char.ofNat 0)).1

/-- Round-trip check for one positive value: encoding `n + 1` and decoding the
result gives `n + 1` back. -/
def rtCheck (n : Nat) : Bool :=
  match to_roman ((n : Int) + 1) with
  | .ok s => to_int64 s == (n : Int) + 1
  | .error _ => false

/-! Sanity checks of the embedding on concrete inputs. -/

example : to_int64 ['X', 'I', 'V'] = 14 := by decide
example : to_int64 ['Z'] = 0 := by decide
example : to_roman 1994 = .ok ['M', 'C', 'M', 'X', 'C', 'I', 'V'] := rfl
example : to_roman (-5) = .ok ['-', 'V'] := rfl
example : to_int64 ['-', 'V'] = 0 := by decide
example : evaluate [Element.mkValue (-7), Element.mkValue 2,
    Element.mkOp '/' ElementType.BINARY_OPERATION] = .ok (-4) := rfl
example : evaluate [Element.mkValue 5, Element.mkValue 0,
    Element.mkOp '/' ElementType.BINARY_OPERATION] = .error .DivisionByZero := rfl
example : evaluate [Element.mkValue 1, Element.mkValue 2] = .ok 1 := rfl
example : evaluate [Element.mkValue 27000000000, Element.mkValue 3000,
    Element.mkOp '/' ElementType.BINARY_OPERATION] = .ok 410065 := rfl
example : parseExpr ['-', 'V'] = .ok [Element.mkValue (-5)] := rfl
example : parseExpr ['I', 'I', 'I', '-', 'V'] =
    .ok [Element.mkValue 3, Element.mkValue 5,
      Element.mkOp '-' ElementType.BINARY_OPERATION] := rfl
example : solveExpr ['I', 'I', '+', 'I', 'I', 'I', '*', 'I', 'I'] =
    .ok ['V', 'I', 'I', 'I'] := rfl
example : solveExpr ['(', 'I', 'I', '+', 'I', 'I', 'I', ')', '*', 'I', 'I'] =
    .ok ['X'] := rfl
example : parseExpr ['(', 'I', 'I', '+', 'I', 'I', 'I'] =
    .error .UnbalancedBrackets := rfl
example : parseExpr ['I', 'I', '+', 'I', 'I', 'I', ')'] =
    .error .UnbalancedBrackets := rfl
example : parseExpr ['(', 'V', ')', '(', 'X', ')'] =
    .ok [Element.mkValue 5, Element.mkValue 10] := rfl
example : solveExpr ['(', 'V', ')', '(', 'X', ')'] = .ok ['V'] := rfl
example : solveExpr [' ', '\t'] = .ok ['Z'] := rfl
example : solveExpr ['-', '(', 'V', ')'] = .ok ['V'] := rfl
example : parseExpr ['I', 'I', '+', '@'] = .error (.BadSymbol 4) := rfl

/-! Helper lemmas about the 32-bit narrowing and `divide`. -/

theorem toInt32_eq_self {x : Int} (h1 : -(2 ^ 31) ≤ x) (h2 : x < 2 ^ 31) :
    toInt32 x = x := by
  unfold toInt32
  rw [Int.emod_eq_of_lt (by omega) (by omega)]
  omega

theorem tdiv_negSucc (m n : Nat) :
    Int.tdiv (Int.negSucc m) (Int.ofNat n) = -Int.ofNat ((m + 1) / n) := rfl

theorem tdiv_negSucc_ofNat_succ (a b : Nat) :
    Int.tdiv (Int.negSucc (a + b)) (Int.ofNat (b + 1)) = Int.negSucc (a / (b + 1)) := by
  rw [tdiv_negSucc]
  rw [show a + b + 1 = a + (b + 1) by omega, Nat.add_div_right a (Nat.succ_pos b)]
  generalize a / (b + 1) = x
  simp only [Int.negSucc_eq, Int.ofNat_eq_natCast]
  omega

theorem tdiv_mixed_neg_pos {l r : Int} (hl : l < 0) (hr : 0 < r) :
    Int.tdiv (-(-l + r - 1)) r = Int.fdiv l r := by
  cases l with
  | ofNat a => simp only [Int.ofNat_eq_natCast] at hl; omega
  | negSucc a =>
    cases r with
    | negSucc b => simp only [Int.negSucc_eq] at hr; omega
    | ofNat b0 =>
      rcases Nat.exists_eq_succ_of_ne_zero (n := b0) (by rintro rfl; exact absurd hr (by decide))
        with ⟨b, hbm⟩
      subst hbm
      rw [show -(-Int.negSucc a + Int.ofNat (b + 1) - 1) = Int.negSucc (a + b) by
        simp only [Int.negSucc_eq, Int.ofNat_eq_natCast]; omega]
      rw [tdiv_negSucc_ofNat_succ]
      rfl

theorem tdiv_mixed_pos_neg {l r : Int} (hl : 0 < l) (hr : r < 0) :
    Int.tdiv (-(l + -r - 1)) (-r) = Int.fdiv l r := by
  cases l with
  | negSucc a => simp only [Int.negSucc_eq] at hl; omega
  | ofNat a0 =>
    cases r with
    | ofNat b => simp only [Int.ofNat_eq_natCast] at hr; omega
    | negSucc b =>
      rcases Nat.exists_eq_succ_of_ne_zero (n := a0) (by rintro rfl; exact absurd hl (by decide))
        with ⟨a, ham⟩
      subst ham
      rw [show -(Int.ofNat (a + 1) + -Int.negSucc b - 1) = Int.negSucc (a + b) by
        simp only [Int.negSucc_eq, Int.ofNat_eq_natCast]; omega]
      rw [show -Int.negSucc b = Int.ofNat (b + 1) by
        simp only [Int.negSucc_eq, Int.ofNat_eq_natCast]; omega]
      rw [tdiv_negSucc_ofNat_succ]
      rfl

/-- On operands that are in 32-bit range (so the narrowing is the identity),
whose absolute values sum to at most `2 ^ 31` (so no intermediate `int`
arithmetic wraps), and with a nonzero divisor, `Element::divide` computes the
floor quotient — the result is rounded toward negative infinity. -/
theorem divide_eq_fdiv {l r : Int}
    (hl1 : -(2 ^ 31) ≤ l) (hl2 : l < 2 ^ 31)
    (hr1 : -(2 ^ 31) ≤ r) (hr2 : r < 2 ^ 31)
    (hr0 : r ≠ 0) (hs : l.natAbs + r.natAbs ≤ 2 ^ 31) :
    divide l r = Int.fdiv l r := by
  unfold divide
  rw [toInt32_eq_self hl1 hl2, toInt32_eq_self hr1 hr2]
  by_cases hb : (l ≤ 0 ∧ r < 0) ∨ (0 ≤ l ∧ 0 < r)
  · rw [if_pos hb]
    rcases hb with ⟨hl0, hr0n⟩ | ⟨hl0, hr0p⟩
    · cases l with
      | ofNat a =>
        rw [show Int.ofNat a = 0 by
          simp only [Int.ofNat_eq_natCast] at hl0 ⊢; omega]
        rw [Int.zero_tdiv, Int.zero_fdiv]
      | negSucc a =>
        cases r with
        | ofNat b => simp only [Int.ofNat_eq_natCast] at hr0n; omega
        | negSucc b => rfl
    · exact (Int.fdiv_eq_tdiv hl0 (le_of_lt hr0p)).symm
  · rw [if_neg hb]
    have hsigns : (l < 0 ∧ 0 < r) ∨ (0 < l ∧ r < 0) := by
      rcases lt_trichotomy r 0 with h | h | h
      · exact Or.inr ⟨by by_contra hc; exact hb (Or.inl ⟨by omega, h⟩), h⟩
      · exact absurd h hr0
      · exact Or.inl ⟨by by_contra hc; exact hb (Or.inr ⟨by omega, h⟩), h⟩
    have habs_l : 1 ≤ l.natAbs := by rcases hsigns with ⟨h1, _⟩ | ⟨h1, _⟩ <;> omega
    have habs_r : 1 ≤ r.natAbs := by rcases hsigns with ⟨_, h1⟩ | ⟨_, h1⟩ <;> omega
    have hcl : cabs l = (l.natAbs : Int) := toInt32_eq_self (by omega) (by omega)
    have hcr : cabs r = (r.natAbs : Int) := toInt32_eq_self (by omega) (by omega)
    rw [hcl, hcr, toInt32_eq_self (by omega) (by omega)]
    rcases hsigns with ⟨hlneg, hrpos⟩ | ⟨hlpos, hrneg⟩
    · rw [show ((l.natAbs : Int)) = -l by omega, show ((r.natAbs : Int)) = r by omega]
      exact tdiv_mixed_neg_pos hlneg hrpos
    · rw [show ((l.natAbs : Int)) = l by omega, show ((r.natAbs : Int)) = -r by omega]
      exact tdiv_mixed_pos_neg hlpos hrneg

/-- What the evaluator does on the postfix sequence `left right /`. -/
theorem evaluate_div (l r : Int) :
    evaluate [Element.mkValue l, Element.mkValue r,
      Element.mkOp '/' ElementType.BINARY_OPERATION] =
      if r = 0 then .error Err.DivisionByZero else .ok (divide l r) := by
  by_cases h : r = 0
  · subst h; rfl
  · simp only [evaluate, solveLoop, Element.proceed, Element.mkValue, Element.mkOp, priorityOf]
    simp [h]

/-- The generic shape of the operator branch: the popped elements are exactly
the longest prefix of the stack with priority at least the new operator's. -/
theorem opStep_eq_span (cur : Element) (st out : List Element) :
    opStep cur st out =
      (cur :: st.dropWhile (fun e => decide (cur.priority ≤ e.priority)),
       out ++ st.takeWhile (fun e => decide (cur.priority ≤ e.priority))) := by
  induction st generalizing out with
  | nil => simp [opStep]
  | cons e st ih =>
    by_cases h : cur.priority ≤ e.priority
    · simp [opStep, h, ih, List.dropWhile_cons, List.takeWhile_cons]
    · simp [opStep, h, List.dropWhile_cons, List.takeWhile_cons]

/-- `closeStep` raises the unbalanced-bracket error exactly when no bracket
is on the operator stack. -/
theorem closeStep_error_iff (st out : List Element) :
    closeStep st out = .error Err.UnbalancedBrackets ↔
      ∀ e ∈ st, e.label ≠ ElementType.BRACKET := by
  induction st generalizing out with
  | nil => simp [closeStep]
  | cons e st ih =>
    by_cases h : e.label = ElementType.BRACKET
    · simp [closeStep, h]
    · simp [closeStep, h, ih]

/-- `flushStack` raises the unbalanced-bracket error exactly when some
non-operator (i.e. a bracket) is left on the operator stack. -/
theorem flushStack_error_iff (st out : List Element) :
    flushStack st out = .error Err.UnbalancedBrackets ↔
      ∃ e ∈ st, e.label ≠ ElementType.BINARY_OPERATION := by
  induction st generalizing out with
  | nil => simp [flushStack]
  | cons e st ih =>
    by_cases h : e.label = ElementType.BINARY_OPERATION
    · simp [flushStack, h, ih]
    · simp [flushStack, h]

/-! The encode-decode round trip on 1..3999, checked in chunks of 500
values each (keeping every single decision procedure small). -/

theorem rtChunk0 : ∀ n, n < 500 → rtCheck (0 + n) = true := by decide

theorem rtChunk1 : ∀ n, n < 500 → rtCheck (500 + n) = true := by decide

theorem rtChunk2 : ∀ n, n < 500 → rtCheck (1000 + n) = true := by decide

theorem rtChunk3 : ∀ n, n < 500 → rtCheck (1500 + n) = true := by decide

theorem rtChunk4 : ∀ n, n < 500 → rtCheck (2000 + n) = true := by decide

theorem rtChunk5 : ∀ n, n < 500 → rtCheck (2500 + n) = true := by decide

theorem rtChunk6 : ∀ n, n < 500 → rtCheck (3000 + n) = true := by decide

theorem rtChunk7 : ∀ n, n < 499 → rtCheck (3500 + n) = true := by decide

theorem rt_all : ∀ n, n < 3999 → rtCheck n = true := by
  intro n h
  by_cases h0 : n < 500
  · have e : 0 + n = n := by omega
    have := rtChunk0 n (by omega)
    rwa [e] at this
  by_cases h1 : n < 1000
  · have e : 500 + (n - 500) = n := by omega
    have := rtChunk1 (n - 500) (by omega)
    rwa [e] at this
  by_cases h2 : n < 1500
  · have e : 1000 + (n - 1000) = n := by omega
    have := rtChunk2 (n - 1000) (by omega)
    rwa [e] at this
  by_cases h3 : n < 2000
  · have e : 1500 + (n - 1500) = n := by omega
    have := rtChunk3 (n - 1500) (by omega)
    rwa [e] at this
  by_cases h4 : n < 2500
  · have e : 2000 + (n - 2000) = n := by omega
    have := rtChunk4 (n - 2000) (by omega)
    rwa [e] at this
  by_cases h5 : n < 3000
  · have e : 2500 + (n - 2500) = n := by omega
    have := rtChunk5 (n - 2500) (by omega)
    rwa [e] at this
  by_cases h6 : n < 3500
  · have e : 3000 + (n - 3000) = n := by omega
    have := rtChunk6 (n - 3000) (by omega)
    rwa [e] at this
  · have e : 3500 + (n - 3500) = n := by omega
    have := rtChunk7 (n - 3500) (by omega)
    rwa [e] at this

/-- Claim C2 (corrected): decoding the text produced by encoding `v` yields
`v` back for every POSITIVE `v` up to 3999.  For negative `v` the round trip
fails: the encoded text carries a leading minus sign, which the decoder does
not understand (both `rule_add` and `rule_div` return 0 on it). -/
theorem claimC2_roundtrip_positive (v : Int) (h1 : 0 < v) (h2 : v ≤ 3999) :
    Except.map to_int64 (to_roman v) = Except.ok v := by
  have hn : ((v.toNat - 1 : Nat) : Int) + 1 = v := by omega
  have hlt : v.toNat - 1 < 3999 := by omega
  have h := rt_all (v.toNat - 1) hlt
  unfold rtCheck at h
  rw [hn] at h
  cases hro : to_roman v with
  | error e => rw [hro] at h; simp at h
  | ok s =>
    rw [hro] at h
    simp only [beq_iff_eq] at h
    simp [Except.map, hro, h]

/-- Claim C2, witness: the round trip at the concrete value 3999. -/
theorem claimC2_roundtrip_positive_witness :
    Except.map to_int64 (to_roman 3999) = Except.ok 3999 :=
  claimC2_roundtrip_positive 3999 (by decide) (by decide)

/-- Claim C2, counterexample: at `v = -5` (which satisfies `0 < |v| ≤ 3999`)
the encoding is `-V` but decoding it yields 0, not -5. -/
theorem claimC2_counterexample :
    to_roman (-5) = .ok ['-', 'V'] ∧ to_int64 ['-', 'V'] = 0 ∧ (0 : Int) ≠ -5 :=
  ⟨rfl, by decide, by decide⟩

/-- Claim C1 (corrected): for every `/` applied by the evaluator, a zero
right operand fails with the division-by-zero error; otherwise, for operands
in 32-bit range whose absolute values sum to at most `2 ^ 31` (so no `int`
arithmetic wraps), the result is the FLOOR quotient, rounded toward negative
infinity — not the quotient truncated toward zero that the claim states. -/
theorem claimC1_division_is_floor (l r : Int)
    (hl1 : -(2 ^ 31) ≤ l) (hl2 : l < 2 ^ 31)
    (hr1 : -(2 ^ 31) ≤ r) (hr2 : r < 2 ^ 31)
    (hs : l.natAbs + r.natAbs ≤ 2 ^ 31) :
    evaluate [Element.mkValue l, Element.mkValue r,
      Element.mkOp '/' ElementType.BINARY_OPERATION] =
      if r = 0 then .error Err.DivisionByZero else .ok (Int.fdiv l r) := by
  rw [evaluate_div]
  by_cases h : r = 0
  · rw [if_pos h, if_pos h]
  · rw [if_neg h, if_neg h, divide_eq_fdiv hl1 hl2 hr1 hr2 h hs]

/-- Claim C1, witness: the corrected statement applied at the concrete
operands -7 and 2 yields the floor quotient -4. -/
theorem claimC1_division_is_floor_witness :
    evaluate [Element.mkValue (-7), Element.mkValue 2,
      Element.mkOp '/' ElementType.BINARY_OPERATION] = .ok (-4) := by
  have h := claimC1_division_is_floor (-7) 2 (by decide) (by decide) (by decide)
    (by decide) (by decide)
  exact h.trans (by rfl)

/-- Claim C1, counterexample: evaluating the postfix sequence
`[Value(-7), Value(2), Operator(/)]` returns -4, not the -3 the claim
states. -/
theorem claimC1_counterexample :
    evaluate [Element.mkValue (-7), Element.mkValue 2,
      Element.mkOp '/' ElementType.BINARY_OPERATION] = .ok (-4) ∧ (-4 : Int) ≠ -3 :=
  ⟨rfl, by decide⟩

/-- Claim C3 (confirmed): the unary-minus test holds exactly under the
stated conditions — the next character exists and is an open bracket or a
numeral letter, the character itself is `-`, and the position is first or
preceded by an operator or close bracket; and the two stated parses hold. -/
theorem claimC3_unary_minus :
    (∀ s : List Char, ∀ i : Nat,
      is_unary s i =
        (decide (i + 1 < s.length) &&
          (charAt s (i + 1) == '(' || is_roman (charAt s (i + 1))) &&
          (charAt s i == '-') &&
          (decide (i = 0) || is_operation (charAt s (i - 1)) || charAt s (i - 1) == ')')))
    ∧ parseExpr ['-', 'V'] = .ok [Element.mkValue (-5)]
    ∧ parseExpr ['I', 'I', 'I', '-', 'V'] =
        .ok [Element.mkValue 3, Element.mkValue 5,
          Element.mkOp '-' ElementType.BINARY_OPERATION] := by
  refine ⟨?_, rfl, rfl⟩
  intro s i
  by_cases h : i + 1 < s.length
  · have hd : decide (i + 1 < s.length) = true := by simpa using h
    by_cases h0 : i = 0
    · have h0d : decide (i = 0) = true := by simpa using h0
      simp [is_unary, hd, h0d]
    · have h0d : decide (i = 0) = false := by simpa using h0
      have hposd : decide (0 < i) = true := by simpa using Nat.pos_of_ne_zero h0
      simp [is_unary, hd, h0d, hposd, Bool.and_assoc, Bool.or_assoc]
  · have hd : decide (i + 1 < s.length) = false := by simpa using h
    have hdef : charAt s (i + 1) = Char.ofNat 0 := by
      unfold charAt
      exact List.getD_eq_default _ _ (by omega)
    simp [is_unary, hd, hdef,
      show is_roman (Char.ofNat 0) = false from rfl,
      show (Char.ofNat 0 == '(') = false from rfl]

/-- Claim C4, counterexample: the decode the claim describes (with
pair-table values 4, 9, 40, 90, 400, 900) gives 5 on the input `IV`, while
the decode of the source gives 4 — the tables differ. -/
theorem claimC4_counterexample :
    to_int64_claimC4 ['I', 'V'] = 5 ∧ to_int64 ['I', 'V'] = 4 ∧ (5 : Int) ≠ 4 :=
  ⟨by decide, by decide, by decide⟩

/-- Claim C4 (corrected): the pair table the source stores is
`{(I,V): 3, (I,X): 8, (X,L): 30, (X,C): 80, (C,D): 300, (C,M): 800}` — each
entry is the claimed combined subtractive value minus the first letter's
additive value, which the scan has already added — so each subtractive pair
still totals 4, 9, 40, 90, 400 and 900, and `decode("IV") = 4`. -/
theorem claimC4_subtractive_pairs :
    to_int64 ['I', 'V'] = 4 ∧ to_int64 ['I', 'X'] = 9 ∧ to_int64 ['X', 'L'] = 40 ∧
    to_int64 ['X', 'C'] = 90 ∧ to_int64 ['C', 'D'] = 400 ∧ to_int64 ['C', 'M'] = 900 ∧
    (∀ p : Char × Char, rule_div_claimC4 p ≠ 0 →
      rule_div p = rule_div_claimC4 p - rule_add p.1) := by
  refine ⟨by decide, by decide, by decide, by decide, by decide, by decide, ?_⟩
  rintro ⟨a, b⟩ hp
  unfold rule_div_claimC4 at hp
  split_ifs at hp with h1 h2 h3 h4 h5 h6
  · injection h1 with ha hb; subst ha; subst hb; decide
  · injection h2 with ha hb; subst ha; subst hb; decide
  · injection h3 with ha hb; subst ha; subst hb; decide
  · injection h4 with ha hb; subst ha; subst hb; decide
  · injection h5 with ha hb; subst ha; subst hb; decide
  · injection h6 with ha hb; subst ha; subst hb; decide
  · exact absurd rfl hp

/-- Claim C4, witness: the corrected table relation applied at the concrete
pair `(I, V)`. -/
theorem claimC4_subtractive_pairs_witness :
    rule_div ('I', 'V') = rule_div_claimC4 ('I', 'V') - rule_add 'I' :=
  claimC4_subtractive_pairs.2.2.2.2.2.2 ('I', 'V') (by decide)

/-- Claim C5, counterexample: the postfix sequence `[Value 5, Value 10]`
(produced by parsing `(V)(X)`) leaves two values on the stack, yet
evaluation does not fail — it returns the bottom value 5, and the whole
pipeline prints `V`. -/
theorem claimC5_counterexample :
    parseExpr ['(', 'V', ')', '(', 'X', ')'] = .ok [Element.mkValue 5, Element.mkValue 10]
    ∧ evaluate [Element.mkValue 5, Element.mkValue 10] = .ok 5
    ∧ solveExpr ['(', 'V', ')', '(', 'X', ')'] = .ok ['V'] :=
  ⟨rfl, rfl, rfl⟩

/-- Claim C5 (corrected): after the scan the evaluator checks only that the
BOTTOM stack element is a value, and returns it; it fails with the
malformed-expression error when an operator lacks two operands, but a stack
holding two or more leftover values is accepted and the bottommost value is
the result — exactly one remaining value is NOT required. -/
theorem claimC5_final_stack :
    (∀ v : Int, evaluate [Element.mkValue v] = .ok v)
    ∧ (∀ v w : Int, evaluate [Element.mkValue v, Element.mkValue w] = .ok v)
    ∧ (∀ v : Int, evaluate [Element.mkValue v,
        Element.mkOp '+' ElementType.BINARY_OPERATION] = .error Err.MalformedExpression) :=
  ⟨fun _ => rfl, fun _ _ => rfl, fun _ => rfl⟩

/-- Claim C6 (confirmed): `+` and `-` rank 0, `*` and `/` rank 1, brackets
rank -1; a newly parsed binary operator pops exactly the stack prefix of
priority greater than or equal to its own before being pushed; and
`II+III*II` evaluates to `VIII`. -/
theorem claimC6_precedence :
    priorityOf '+' = 0 ∧ priorityOf '-' = 0 ∧ priorityOf '*' = 1 ∧ priorityOf '/' = 1 ∧
    priorityOf '(' = -1 ∧ priorityOf ')' = -1 ∧
    (∀ cur : Element, ∀ st out : List Element,
      opStep cur st out =
        (cur :: st.dropWhile (fun e => decide (cur.priority ≤ e.priority)),
         out ++ st.takeWhile (fun e => decide (cur.priority ≤ e.priority))))
    ∧ solveExpr ['I', 'I', '+', 'I', 'I', 'I', '*', 'I', 'I'] = .ok ['V', 'I', 'I', 'I'] :=
  ⟨rfl, rfl, rfl, rfl, rfl, rfl, opStep_eq_span, rfl⟩

/-- Claim C7 (confirmed): encoding succeeds exactly for absolute values up
to 3999 and fails with the overflow error above that bound. -/
theorem claimC7_overflow_boundary :
    ∀ v : Int, (v.natAbs ≤ 3999 → ∃ s, to_roman v = .ok s)
      ∧ (3999 < v.natAbs → to_roman v = .error Err.Overflow) := by
  intro v
  constructor
  · intro h
    unfold to_roman
    by_cases h0 : v = 0
    · exact ⟨['Z'], by rw [if_pos h0]⟩
    · rw [if_neg h0, if_neg (by omega)]
      by_cases hneg : v < 0
      · rw [if_pos hneg]; exact ⟨_, rfl⟩
      · rw [if_neg hneg]; exact ⟨_, rfl⟩
  · intro h
    unfold to_roman
    rw [if_neg (by omega), if_pos h]

/-- Claim C7, witness: `encode 3999` succeeds while `encode 4000` and
`encode (-4000)` fail with the overflow error. -/
theorem claimC7_overflow_boundary_witness :
    (∃ s, to_roman 3999 = .ok s) ∧ to_roman 4000 = .error Err.Overflow ∧
      to_roman (-4000) = .error Err.Overflow :=
  ⟨(claimC7_overflow_boundary 3999).1 (by decide),
   (claimC7_overflow_boundary 4000).2 (by decide),
   (claimC7_overflow_boundary (-4000)).2 (by decide)⟩

/-- Claim C8 (confirmed): the unbalanced-bracket error arises exactly in the
two stated situations — a close bracket scanned with no bracket anywhere on
the operator stack, or a bracket still on the stack at end of scan — and
both `(II+III` and `II+III)` fail with it. -/
theorem claimC8_unbalanced_brackets :
    (∀ st out : List Element,
      closeStep st out = .error Err.UnbalancedBrackets ↔
        ∀ e ∈ st, e.label ≠ ElementType.BRACKET)
    ∧ (∀ st out : List Element,
      flushStack st out = .error Err.UnbalancedBrackets ↔
        ∃ e ∈ st, e.label ≠ ElementType.BINARY_OPERATION)
    ∧ parseExpr ['(', 'I', 'I', '+', 'I', 'I', 'I'] = .error Err.UnbalancedBrackets
    ∧ parseExpr ['I', 'I', '+', 'I', 'I', 'I', ')'] = .error Err.UnbalancedBrackets :=
  ⟨closeStep_error_iff, flushStack_error_iff, rfl, rfl⟩

/-- Claim C9 (confirmed): an input that is empty or all whitespace parses to
the empty postfix sequence and the pipeline outputs the zero symbol. -/
theorem claimC9_empty_input (s : List Char) (h : ∀ c ∈ s, isspace c = true) :
    parseExpr s = .ok [] ∧ solveExpr s = .ok ['Z'] := by
  have hc : clean s = [] := by
    rw [clean, List.filter_eq_nil_iff]
    intro a ha
    simp [h a ha]
  have hp : parseExpr s = .ok [] := by
    simp [parseExpr, hc, parseLoop, flushStack]
  exact ⟨hp, by simp [solveExpr, hp, solveOut]⟩

/-- Claim C9, witness: the whitespace-only input of a space and a tab. -/
theorem claimC9_empty_input_witness :
    parseExpr [' ', '\t'] = .ok [] ∧ solveExpr [' ', '\t'] = .ok ['Z'] :=
  claimC9_empty_input [' ', '\t'] (by decide)

/-- Claim C10 (confirmed): `/` narrows both operands modulo `2 ^ 32` before
dividing.  Parsing `MMM*MMM*MMM/MMM` is accepted, its evaluation reaches the
division with left operand 27000000000 (which fits int64 but not 32 bits)
and produces 410065: the narrowed left operand is 1230196224, and 64-bit
truncating division of the same operands would give 9000000 instead. -/
theorem claimC10_int32_narrowing :
    parseExpr ['M', 'M', 'M', '*', 'M', 'M', 'M', '*', 'M', 'M', 'M', '/', 'M', 'M', 'M'] =
      .ok [Element.mkValue 3000, Element.mkValue 3000,
        Element.mkOp '*' ElementType.BINARY_OPERATION, Element.mkValue 3000,
        Element.mkOp '*' ElementType.BINARY_OPERATION, Element.mkValue 3000,
        Element.mkOp '/' ElementType.BINARY_OPERATION]
    ∧ evaluate [Element.mkValue 3000, Element.mkValue 3000,
        Element.mkOp '*' ElementType.BINARY_OPERATION, Element.mkValue 3000,
        Element.mkOp '*' ElementType.BINARY_OPERATION, Element.mkValue 3000,
        Element.mkOp '/' ElementType.BINARY_OPERATION] = .ok 410065
    ∧ toInt32 27000000000 = 1230196224
    ∧ divide 27000000000 3000 = 410065
    ∧ Int.tdiv 27000000000 3000 = 9000000
    ∧ (410065 : Int) ≠ 9000000 :=
  ⟨rfl, rfl, rfl, rfl, rfl, by decide⟩

end RomanCalc
